import Mathlib

/-!
Verification development for the key-custody and trigger-order engine of the
solana-base-trading-bot repository.

The TypeScript sources are shallowly embedded as Lean definitions:

* Cryptographic primitives (PBKDF2, AES-256-GCM, AES-256-CBC, `randomBytes`)
  are idealised symbolically: a byte string produced by the cipher layer is a
  term of the inductive type `Bytes` that records how it was produced.  The
  key-derivation function is treated as injective and AES-GCM as a perfect
  authenticated cipher (decryption succeeds exactly when key, IV and tag
  match the original encryption, and then returns the original plaintext);
  AES-CBC decryption with a wrong key is modelled as the padding exception
  the Node `crypto` module raises.  `crypto.randomBytes` draws are identified
  by an explicit index supplied by the caller (stateful wrappers thread a
  counter).
* An encrypted blob on the wire is `salt:iv:tag:ciphertext` (hex fields
  joined by colons); a blob is represented by its list of colon-separated
  fields, i.e. `encryptedText.split(':')` is already applied, so the
  field-count checks of the source act on `List.length`.
* Stateful services (session manager, security database, wallet store,
  trigger-order table) become pure functions over explicit state records;
  `Date.now()` is an explicit `now : Nat` argument (milliseconds).
* JavaScript numbers used for prices are modelled as rationals.
-/

namespace TradingBot

/-- The two supported networks (`Network` in src/types). -/
inductive Network where
  | solana
  | base
  deriving DecidableEq, Repr

/-- Symbolic model of a byte string handled by the cipher layer.
`raw s` is the byte string decoded from a caller-supplied string (e.g. a hex
server key), `rand n` the `n`-th draw of `crypto.randomBytes`, `kdf m salt`
the output of `crypto.pbkdf2Sync(m, salt, 310000, 32, 'sha256')`, and the
remaining constructors are AES ciphertext bodies and GCM authentication tags
over (key, iv, plaintext). -/
inductive Bytes where
  | raw : String → Bytes
  | rand : Nat → Bytes
  | kdf : String → Bytes → Bytes
  | gcmTag : Bytes → Bytes → String → Bytes
  | gcmCt : Bytes → Bytes → String → Bytes
  | cbcCt : Bytes → Bytes → String → Bytes
  deriving DecidableEq, Repr

/-- AES-256-GCM decryption with authentication-tag check, idealised: it
returns the plaintext exactly when the ciphertext body was produced under the
same key and IV and the supplied tag is the authentic tag for that message;
every other input fails the tag check (the `decipher.final` throw is the
`none` result, callers catch it). -/
def gcmDecrypt (key iv tag ct : Bytes) : Option String :=
  match ct with
  | .gcmCt k i p =>
      if k = key ∧ i = iv ∧ tag = Bytes.gcmTag key iv p then some p else none
  | _ => none

/-- AES-256-CBC decryption (no authentication), idealised: a wrong key or a
body that is not a CBC ciphertext raises the bad-padding exception, modelled
as `Except.error`. -/
def cbcDecrypt (key iv ct : Bytes) : Except String String :=
  match ct with
  | .cbcCt k i p =>
      if k = key ∧ i = iv then .ok p else .error "bad decrypt"
  | _ => .error "bad decrypt"

/-! ### src/utils/encryption-v2 (part_001): password-derived encryption -/

/-- `deriveKeyFromPassword(password, telegramUserId, salt)`: combines the
password with the Telegram ID and stretches via PBKDF2. -/
def deriveKeyFromPassword (password : String) (telegramUserId : Int)
    (salt : Bytes) : Bytes :=
  Bytes.kdf (password ++ ":" ++ toString telegramUserId) salt

/-- `hashPassword(password, telegramUserId)`: fresh random salt (draw index
`saltIdx`), PBKDF2 hash, stored as the two hex fields `salt:hash`. -/
def hashPassword (password : String) (telegramUserId : Int)
    (saltIdx : Nat) : List Bytes :=
  let salt := Bytes.rand saltIdx
  [salt, Bytes.kdf (password ++ ":" ++ toString telegramUserId) salt]

/-- `crypto.timingSafeEqual`: constant-time equality of two buffers.  Both
call sites compare two 32-byte PBKDF2 outputs, so the equal-length
precondition of the real function always holds there. -/
def timingSafeEqual (a b : Bytes) : Bool :=
  a = b

/-- `verifyPassword(password, telegramUserId, storedHash)`: split the stored
hash, recompute the PBKDF2 hash with the stored salt, compare in constant
time; a malformed stored hash (field count other than 2) is rejected. -/
def verifyPassword (password : String) (telegramUserId : Int)
    (storedHash : List Bytes) : Bool :=
  match storedHash with
  | [salt, hash] =>
      timingSafeEqual hash
        (Bytes.kdf (password ++ ":" ++ toString telegramUserId) salt)
  | _ => false

/-- `encryptWithPassword(plaintext, password, telegramUserId)`: fresh random
salt and IV (draw indices `saltIdx`, `ivIdx`), AES-256-GCM under the derived
key, serialised as the four hex fields `salt:iv:authTag:encryptedData`. -/
def encryptWithPassword (plaintext password : String) (telegramUserId : Int)
    (saltIdx ivIdx : Nat) : List Bytes :=
  let salt := Bytes.rand saltIdx
  let key := deriveKeyFromPassword password telegramUserId salt
  let iv := Bytes.rand ivIdx
  [salt, iv, Bytes.gcmTag key iv plaintext, Bytes.gcmCt key iv plaintext]

/-- `decryptWithPassword(encryptedText, password, telegramUserId)`: reject
any field count other than 4, re-derive the key from the stored salt,
GCM-decrypt; any authentication failure or exception yields `none`. -/
def decryptWithPassword (encryptedText : List Bytes) (password : String)
    (telegramUserId : Int) : Option String :=
  match encryptedText with
  | [salt, iv, authTag, encrypted] =>
      let key := deriveKeyFromPassword password telegramUserId salt
      gcmDecrypt key iv authTag encrypted
  | _ => none

/-- `createSessionEncryption().encrypt`: AES-256-GCM under the in-memory
session key, serialised as the three hex fields `iv:authTag:encrypted`. -/
def sessionEncrypt (sessionKey : Bytes) (data : String) (ivIdx : Nat) :
    List Bytes :=
  let iv := Bytes.rand ivIdx
  [iv, Bytes.gcmTag sessionKey iv data, Bytes.gcmCt sessionKey iv data]

/-- `createSessionEncryption().decrypt`: reject any field count other than 3,
GCM-decrypt under the session key; exceptions are caught and yield `none`. -/
def sessionDecrypt (sessionKey : Bytes) (encryptedText : List Bytes) :
    Option String :=
  match encryptedText with
  | [iv, authTag, encrypted] => gcmDecrypt sessionKey iv authTag encrypted
  | _ => none

/-- `decryptLegacy(encryptedText, serverKey)`: the legacy AES-256-CBC path
(format `iv:encrypted`, 2 fields) keyed by the process-wide server key; wrong
field count or any exception yields `none`. -/
def decryptLegacy (encryptedText : List Bytes) (serverKey : String) :
    Option String :=
  match encryptedText with
  | [iv, encrypted] => (cbcDecrypt (Bytes.raw serverKey) iv encrypted).toOption
  | _ => none

/-- `isLegacyFormat(encryptedText)`: legacy blobs have 2 colon-separated
fields, current ones 4. -/
def isLegacyFormat (encryptedText : List Bytes) : Bool :=
  encryptedText.length = 2

/-! ### src/utils/encryption.ts: original server-key AES-256-CBC helpers -/

/-- `encrypt(text)` from src/utils/encryption.ts: AES-256-CBC under the
configured server key, fresh IV (draw index `ivIdx`), serialised as
`iv:encrypted`. -/
def encrypt (serverKey : String) (text : String) (ivIdx : Nat) : List Bytes :=
  let iv := Bytes.rand ivIdx
  [iv, Bytes.cbcCt (Bytes.raw serverKey) iv text]

/-- `decrypt(encryptedText)` from src/utils/encryption.ts: throws
`Invalid encrypted text format` on a field count other than 2 and lets any
cipher exception propagate to the caller; thrown exceptions are the
`Except.error` results. -/
def decrypt (serverKey : String) (encryptedText : List Bytes) :
    Except String String :=
  match encryptedText with
  | [iv, encrypted] => cbcDecrypt (Bytes.raw serverKey) iv encrypted
  | _ => .error "Invalid encrypted text format"

/-! ### Theorems about the cipher primitives -/

/-- Helper: for a fixed user id, the combined `password:telegramUserId` KDF
material determines the password. -/
theorem combined_material_inj {p p' : String} {u : Int}
    (h : p ++ ":" ++ toString u = p' ++ ":" ++ toString u) : p = p' := by
  have hd := congrArg String.data h
  simp only [String.data_append] at hd
  exact String.ext (List.append_cancel_right (List.append_cancel_right hd))

/-- C2: for every secret string `s`, password `p` and user id `u` (and any
salt and IV draws), `decryptWithPassword (encryptWithPassword s p u) p u`
returns `s`; and for every password `p'` different from `p`, decrypting the
same blob with `p'` returns no value. -/
theorem decryptWithPassword_encryptWithPassword (s p : String) (u : Int)
    (saltIdx ivIdx : Nat) :
    decryptWithPassword (encryptWithPassword s p u saltIdx ivIdx) p u =
        some s ∧
    ∀ p' : String, p' ≠ p →
      decryptWithPassword (encryptWithPassword s p u saltIdx ivIdx) p' u =
        none := by
  constructor
  · simp [decryptWithPassword, encryptWithPassword, gcmDecrypt,
      deriveKeyFromPassword]
  · intro p' hne
    simp only [decryptWithPassword, encryptWithPassword, gcmDecrypt,
      deriveKeyFromPassword]
    rw [if_neg]
    rintro ⟨hk, -, -⟩
    rw [Bytes.kdf.injEq] at hk
    exact hne (combined_material_inj hk.1).symm

/-- Concrete instance of the C2 theorem. -/
theorem decryptWithPassword_encryptWithPassword_witness :
    ("pw2" : String) ≠ "pw1" ∧
    decryptWithPassword (encryptWithPassword "secret" "pw1" 1 0 1) "pw1" 1 =
      some "secret" ∧
    decryptWithPassword (encryptWithPassword "secret" "pw1" 1 0 1) "pw2" 1 =
      none :=
  ⟨by decide,
   (decryptWithPassword_encryptWithPassword "secret" "pw1" 1 0 1).1,
   (decryptWithPassword_encryptWithPassword "secret" "pw1" 1 0 1).2 "pw2"
     (by decide)⟩

/-- C3: for every password `p` and user id `u` (and any salt draw),
`verifyPassword p u (hashPassword p u)` is true; and for every password `p'`
different from `p`, `verifyPassword p' u (hashPassword p u)` is false. -/
theorem verifyPassword_hashPassword (p : String) (u : Int) (saltIdx : Nat) :
    verifyPassword p u (hashPassword p u saltIdx) = true ∧
    ∀ p' : String, p' ≠ p →
      verifyPassword p' u (hashPassword p u saltIdx) = false := by
  constructor
  · simp [verifyPassword, hashPassword, timingSafeEqual]
  · intro p' hne
    simp only [verifyPassword, hashPassword, timingSafeEqual]
    rw [decide_eq_false_iff_not]
    intro hc
    rw [Bytes.kdf.injEq] at hc
    exact hne (combined_material_inj hc.1).symm

/-- Concrete instance of the C3 theorem. -/
theorem verifyPassword_hashPassword_witness :
    ("other" : String) ≠ "hunter2" ∧
    verifyPassword "hunter2" 42 (hashPassword "hunter2" 42 0) = true ∧
    verifyPassword "other" 42 (hashPassword "hunter2" 42 0) = false :=
  ⟨by decide,
   (verifyPassword_hashPassword "hunter2" 42 0).1,
   (verifyPassword_hashPassword "hunter2" 42 0).2 "other" (by decide)⟩

/-- C6 counterexample: `decrypt` from src/utils/encryption.ts does not fail
closed.  On an input whose colon-separated field count is not 2 it throws
`Invalid encrypted text format` (a propagated exception, the `Except.error`
result of the model) instead of returning no value to the caller. -/
theorem decrypt_throws_on_malformed :
    decrypt "serverkey" [Bytes.raw "abc"] =
      Except.error "Invalid encrypted text format" := rfl

/-- C6 (amended): the password, legacy-migration and session decrypt paths
fail closed — a field count other than the expected one, a tag mismatch or
any cipher exception yields `none`, and a `some` result is only ever the
complete plaintext of an authentic encryption of the whole blob under the
matching key (never a partial plaintext) — but `decrypt` in
src/utils/encryption.ts is the exception: it throws on a malformed field
count or cipher failure instead of returning no value. -/
theorem decrypt_fails_closed :
    (∀ (blob : List Bytes) (p : String) (u : Int),
        blob.length ≠ 4 → decryptWithPassword blob p u = none) ∧
    (∀ (blob : List Bytes) (p : String) (u : Int) (s : String),
        decryptWithPassword blob p u = some s →
        ∃ salt ivb, blob = [salt, ivb,
            Bytes.gcmTag (deriveKeyFromPassword p u salt) ivb s,
            Bytes.gcmCt (deriveKeyFromPassword p u salt) ivb s]) ∧
    (∀ (blob : List Bytes) (k : String),
        blob.length ≠ 2 → decryptLegacy blob k = none) ∧
    (∀ (blob : List Bytes) (k s : String),
        decryptLegacy blob k = some s →
        ∃ ivb, blob = [ivb, Bytes.cbcCt (Bytes.raw k) ivb s]) ∧
    (∀ (key : Bytes) (blob : List Bytes),
        blob.length ≠ 3 → sessionDecrypt key blob = none) ∧
    (∀ (key : Bytes) (blob : List Bytes) (s : String),
        sessionDecrypt key blob = some s →
        ∃ ivb, blob = [ivb, Bytes.gcmTag key ivb s,
          Bytes.gcmCt key ivb s]) := by
  refine ⟨?_, ?_, ?_, ?_, ?_, ?_⟩
  · intro blob p u h
    unfold decryptWithPassword
    split
    · simp at h
    · rfl
  · intro blob p u s h
    unfold decryptWithPassword at h
    split at h
    · rename_i salt iv tag ct
      have h' : gcmDecrypt (deriveKeyFromPassword p u salt) iv tag ct =
          some s := h
      unfold gcmDecrypt at h'
      split at h'
      · rename_i k i pp
        split at h'
        · rename_i hc
          obtain ⟨hk, hi, ht⟩ := hc
          obtain rfl : pp = s := Option.some.inj h'
          exact ⟨salt, iv, by rw [hk, hi, ht]⟩
        · exact absurd h' (by simp)
      · exact absurd h' (by simp)
    · exact absurd h (by simp)
  · intro blob k h
    unfold decryptLegacy
    split
    · simp at h
    · rfl
  · intro blob k s h
    unfold decryptLegacy at h
    split at h
    · rename_i iv enc
      unfold cbcDecrypt at h
      split at h
      · rename_i ck ci pp
        split at h
        · rename_i hc
          obtain ⟨hk, hi⟩ := hc
          obtain rfl : pp = s := Option.some.inj h
          exact ⟨iv, by rw [hk, hi]⟩
        · exact absurd h (by simp [Except.toOption])
      · exact absurd h (by simp [Except.toOption])
    · exact absurd h (by simp)
  · intro key blob h
    unfold sessionDecrypt
    split
    · simp at h
    · rfl
  · intro key blob s h
    unfold sessionDecrypt at h
    split at h
    · rename_i iv tag ct
      unfold gcmDecrypt at h
      split at h
      · rename_i k i pp
        split at h
        · rename_i hc
          obtain ⟨hk, hi, ht⟩ := hc
          obtain rfl : pp = s := Option.some.inj h
          exact ⟨iv, by rw [hk, hi, ht]⟩
        · exact absurd h (by simp)
      · exact absurd h (by simp)
    · exact absurd h (by simp)

/-- Concrete instance of the C6 theorem: each fail-closed branch evaluated at
an explicit malformed or authentic input. -/
theorem decrypt_fails_closed_witness :
    ([Bytes.raw "x"].length ≠ 4 ∧
      decryptWithPassword [Bytes.raw "x"] "p" 1 = none) ∧
    (decryptWithPassword (encryptWithPassword "sec" "p" 1 0 1) "p" 1 =
        some "sec" ∧
      ∃ salt ivb, encryptWithPassword "sec" "p" 1 0 1 = [salt, ivb,
        Bytes.gcmTag (deriveKeyFromPassword "p" 1 salt) ivb "sec",
        Bytes.gcmCt (deriveKeyFromPassword "p" 1 salt) ivb "sec"]) ∧
    ([Bytes.raw "x"].length ≠ 2 ∧
      decryptLegacy [Bytes.raw "x"] "k" = none) ∧
    ([Bytes.raw "x"].length ≠ 3 ∧
      sessionDecrypt (Bytes.rand 0) [Bytes.raw "x"] = none) :=
  ⟨⟨by decide, decrypt_fails_closed.1 [Bytes.raw "x"] "p" 1 (by decide)⟩,
   ⟨by decide,
    decrypt_fails_closed.2.1 (encryptWithPassword "sec" "p" 1 0 1) "p" 1 "sec"
      (by decide)⟩,
   ⟨by decide, decrypt_fails_closed.2.2.1 [Bytes.raw "x"] "k" (by decide)⟩,
   ⟨by decide,
    decrypt_fails_closed.2.2.2.2.1 (Bytes.rand 0) [Bytes.raw "x"]
      (by decide)⟩⟩

/-! ### src/types/trigger-orders.ts and trigger-orders-db (part_002) -/

inductive TriggerType where
  | price
  | marketcap
  deriving DecidableEq, Repr

inductive TriggerCondition where
  | above
  | below
  deriving DecidableEq, Repr

inductive OrderSide where
  | buy
  | sell
  deriving DecidableEq, Repr

inductive OrderStatus where
  | active
  | triggered
  | executed
  | failed
  | cancelled
  deriving DecidableEq, Repr

inductive AmountType where
  | fixed
  | percentage
  deriving DecidableEq, Repr

/-- A row of the `trigger_orders` table (`TriggerOrder` in
src/types/trigger-orders.ts); timestamps are `Nat` clock values, prices are
rationals, and the defaults mirror the column defaults
(`status DEFAULT 'active'`, `slippage_bps DEFAULT 100`). -/
structure TriggerOrder where
  id : Nat
  telegramUserId : Int
  chatId : Int
  network : Network
  tokenAddress : String
  tokenSymbol : String
  side : OrderSide
  triggerType : TriggerType
  triggerCondition : TriggerCondition
  triggerValue : ℚ
  amount : String
  amountType : AmountType
  slippageBps : Nat := 100
  status : OrderStatus := .active
  priceAtCreation : ℚ
  createdAt : Nat := 0
  triggeredAt : Option Nat := none
  executedAt : Option Nat := none
  txHash : Option String := none
  executionPrice : Option ℚ := none
  error : Option String := none
  deriving DecidableEq, Repr

/-- `markOrderTriggered(id)`:
`UPDATE trigger_orders SET status = 'triggered', triggered_at =
CURRENT_TIMESTAMP WHERE id = ?` — the WHERE clause matches on the id alone,
with no condition on the current status. -/
def markOrderTriggered (orders : List TriggerOrder) (id : Nat) (now : Nat) :
    List TriggerOrder :=
  orders.map fun o =>
    if o.id = id then
      { o with status := .triggered, triggeredAt := some now }
    else o

/-- `markOrderExecuted(id, txHash, executionPrice)`: unconditional update by
id to the terminal `executed` state. -/
def markOrderExecuted (orders : List TriggerOrder) (id : Nat)
    (txHash : String) (executionPrice : ℚ) (now : Nat) : List TriggerOrder :=
  orders.map fun o =>
    if o.id = id then
      { o with status := .executed, executedAt := some now,
               txHash := some txHash, executionPrice := some executionPrice }
    else o

/-- `markOrderFailed(id, error)`: unconditional update by id to the terminal
`failed` state. -/
def markOrderFailed (orders : List TriggerOrder) (id : Nat) (error : String) :
    List TriggerOrder :=
  orders.map fun o =>
    if o.id = id then { o with status := .failed, error := some error }
    else o

/-- `cancelOrder(id, telegramUserId)`:
`UPDATE ... SET status = 'cancelled' WHERE id = ? AND telegram_user_id = ?
AND status = 'active'`, returning `changes > 0`. -/
def cancelOrder (orders : List TriggerOrder) (id : Nat)
    (telegramUserId : Int) : Bool × List TriggerOrder :=
  let hit := fun o : TriggerOrder =>
    o.id = id ∧ o.telegramUserId = telegramUserId ∧ o.status = .active
  (decide (0 < orders.countP fun o => decide (hit o)),
   orders.map fun o => if hit o then { o with status := .cancelled } else o)

/-- `getActiveTriggerOrders()`: the scheduler reloads only rows with
`status = 'active'` each cycle. -/
def getActiveTriggerOrders (orders : List TriggerOrder) : List TriggerOrder :=
  orders.filter fun o => o.status = .active

/-- `checkTriggerCondition(currentValue, targetValue, condition)` from the
trigger-order service: `above` is `currentValue >= targetValue`, `below` is
`currentValue <= targetValue`. -/
def checkTriggerCondition (currentValue targetValue : ℚ)
    (condition : TriggerCondition) : Bool :=
  match condition with
  | .above => currentValue ≥ targetValue
  | .below => currentValue ≤ targetValue

/-- A trigger order already in the terminal `executed` state, used to
evaluate `markOrderTriggered` on a non-active order. -/
def executedOrder : TriggerOrder :=
  { id := 1, telegramUserId := 7, chatId := 7, network := .solana,
    tokenAddress := "TOKEN", tokenSymbol := "TOK", side := .buy,
    triggerType := .price, triggerCondition := .above, triggerValue := 100,
    amount := "1", amountType := .fixed, status := .executed,
    priceAtCreation := 90, txHash := some "tx0" }

/-- C1 failing evaluation: `markOrderTriggered` is not a compare-and-set.
Its UPDATE matches on the id alone, so on a store whose only order is
already in the terminal `executed` state the transition is applied anyway,
moving the order back to `triggered` — the claimed only-if-still-active
conditional update does not hold, and a terminal order is modified by a
later transition. -/
theorem markOrderTriggered_ignores_status :
    executedOrder.status = .executed ∧
    markOrderTriggered [executedOrder] 1 5 =
      [{ executedOrder with status := .triggered, triggeredAt := some 5 }] ∧
    ((markOrderTriggered [executedOrder] 1 5).map TriggerOrder.status =
      [.triggered]) := by
  refine ⟨rfl, ?_, ?_⟩ <;> decide

/-- C8: trigger evaluation is inclusive at the boundary: an `above` trigger
is satisfied exactly when the current value is ≥ the target and a `below`
trigger exactly when it is ≤ the target; in particular with target 100 the
observed values 100 and 150 match `above` and 99 does not, and symmetrically
for `below`. -/
theorem checkTriggerCondition_inclusive :
    (∀ currentValue targetValue : ℚ,
        checkTriggerCondition currentValue targetValue .above = true ↔
          currentValue ≥ targetValue) ∧
    (∀ currentValue targetValue : ℚ,
        checkTriggerCondition currentValue targetValue .below = true ↔
          currentValue ≤ targetValue) ∧
    checkTriggerCondition 100 100 .above = true ∧
    checkTriggerCondition 150 100 .above = true ∧
    checkTriggerCondition 99 100 .above = false ∧
    checkTriggerCondition 100 100 .below = true ∧
    checkTriggerCondition 50 100 .below = true ∧
    checkTriggerCondition 101 100 .below = false := by
  refine ⟨fun v t => ?_, fun v t => ?_, by decide, by decide, by decide,
    by decide, by decide, by decide⟩ <;>
    simp [checkTriggerCondition]

/-! ### src/services/session-manager.ts

JS `Map`s are modelled as association lists in insertion order with unique
keys, matching `Map.get` / `Map.set` / `Map.delete`. -/

def mapGet {κ α : Type} [DecidableEq κ] : List (κ × α) → κ → Option α
  | [], _ => none
  | (k, v) :: rest, key => if k = key then some v else mapGet rest key

def mapSet {κ α : Type} [DecidableEq κ] : List (κ × α) → κ → α → List (κ × α)
  | [], key, v => [(key, v)]
  | (k, v0) :: rest, key, v =>
      if k = key then (key, v) :: rest else (k, v0) :: mapSet rest key v

def mapDelete {κ α : Type} [DecidableEq κ] (m : List (κ × α)) (key : κ) :
    List (κ × α) :=
  m.filter fun e => !decide (e.1 = key)

/-- An in-memory session: decrypted secrets are cached re-encrypted under the
session-specific random key produced by `createSessionEncryption()`. -/
structure Session where
  telegramUserId : Int
  unlockedAt : Nat
  expiresAt : Nat
  encryptedKeys : List (Network × List Bytes)
  sessionKey : Bytes
  deriving DecidableEq, Repr

abbrev SessionStore := List (Int × Session)

def SESSION_TIMEOUT_MS : Nat := 30 * 60 * 1000

def MAX_SESSIONS : Nat := 10000

/-- The eviction step of `createSession`: drop the session with the smallest
`unlockedAt` (the source sorts ascending by `unlockedAt` and deletes the
first entry). -/
def removeOldestSession (sessions : SessionStore) : SessionStore :=
  match sessions with
  | [] => []
  | first :: _ =>
      let oldest := sessions.foldl
        (fun best e => if e.2.unlockedAt < best.2.unlockedAt then e else best)
        first
      mapDelete sessions oldest.1

/-- `createSession(telegramUserId, timeoutMs)`: evict expired (and, if still
full, the oldest) sessions when at `MAX_SESSIONS`, then store a fresh session
with a new random session key (draw index `keyIdx`). -/
def createSession (sessions : SessionStore) (telegramUserId : Int)
    (now keyIdx timeoutMs : Nat) : Session × SessionStore :=
  let sessions :=
    if MAX_SESSIONS ≤ sessions.length then
      sessions.filter fun e => !decide (e.2.expiresAt < now)
    else sessions
  let sessions :=
    if MAX_SESSIONS ≤ sessions.length then removeOldestSession sessions
    else sessions
  let session : Session :=
    { telegramUserId, unlockedAt := now, expiresAt := now + timeoutMs,
      encryptedKeys := [], sessionKey := Bytes.rand keyIdx }
  (session, mapSet sessions telegramUserId session)

/-- `getSession(telegramUserId)`: lazy expiry on every read — an expired
session is deleted and `null` is returned. -/
def getSession (sessions : SessionStore) (telegramUserId : Int) (now : Nat) :
    Option Session × SessionStore :=
  match mapGet sessions telegramUserId with
  | none => (none, sessions)
  | some session =>
      if session.expiresAt < now then
        (none, mapDelete sessions telegramUserId)
      else (some session, sessions)

/-- `storeKeyInSession(telegramUserId, network, privateKey)`: encrypt the key
under the session key (IV draw index `ivIdx`) and cache it. -/
def storeKeyInSession (sessions : SessionStore) (telegramUserId : Int)
    (network : Network) (privateKey : String) (now ivIdx : Nat) :
    Bool × SessionStore :=
  match getSession sessions telegramUserId now with
  | (none, sessions1) => (false, sessions1)
  | (some session, sessions1) =>
      let encrypted := sessionEncrypt session.sessionKey privateKey ivIdx
      let session1 := { session with
        encryptedKeys := mapSet session.encryptedKeys network encrypted }
      (true, mapSet sessions1 telegramUserId session1)

/-- `getKeyFromSession(telegramUserId, network)`: re-checks expiry via
`getSession`, then decrypts the cached blob under the session key. -/
def getKeyFromSession (sessions : SessionStore) (telegramUserId : Int)
    (network : Network) (now : Nat) : Option String × SessionStore :=
  match getSession sessions telegramUserId now with
  | (none, sessions1) => (none, sessions1)
  | (some session, sessions1) =>
      match mapGet session.encryptedKeys network with
      | none => (none, sessions1)
      | some encrypted =>
          (sessionDecrypt session.sessionKey encrypted, sessions1)

/-- `lockSession(telegramUserId)`: destroy the session; idempotent. -/
def lockSession (sessions : SessionStore) (telegramUserId : Int) :
    SessionStore :=
  mapDelete sessions telegramUserId

/-! ### Custody state: security-database.ts rows, wallet rows, config

security-database.ts is staged as the third segment of
src/handlers/callbacks.ts (after the second separator); its row stores and
queries are embedded from that source.  The wallet store is from
src/services/database.ts; `initSecurityTables` adds the
`encryption_version INTEGER DEFAULT 1` column to the `wallets` table, so the
version is a column of the wallet row. -/

/-- A `user_security` row (`UserSecurity` in src/types/security.ts); the
defaults mirror the column defaults (`transfer_limit_sol DEFAULT 1.0`,
`transfer_limit_eth DEFAULT 0.1`, `two_factor_enabled DEFAULT 0`, the rest
NULL / CURRENT_TIMESTAMP). -/
structure UserSecurity where
  telegramUserId : Int
  passwordHash : List Bytes
  antiPhishingCode : Option String := none
  transferLimitSol : ℚ := 1
  transferLimitEth : ℚ := 1 / 10
  twoFactorSecret : Option String := none
  twoFactorEnabled : Bool := false
  createdAt : Nat := 0
  lastPasswordChange : Option Nat := none
  deriving DecidableEq, Repr

/-- A `wallets` row (src/services/database.ts), keyed by (user, network);
`encryptionVersion` is the `encryption_version INTEGER DEFAULT 1` column
added by `initSecurityTables`. -/
structure UserWallet where
  address : String
  encryptedPrivateKey : List Bytes
  encryptionVersion : Nat := 1
  deriving DecidableEq, Repr

/-- A `login_attempts` row: (attempt_time in ms, success flag). -/
structure LoginAttempt where
  timeMs : Nat
  success : Bool
  deriving DecidableEq, Repr

/-- The combined persistent + in-memory state the custody service acts on:
keyed record stores as functions, the session map, the configured
`config.walletEncryptionKey`, and the next `crypto.randomBytes` draw
index. -/
structure AppState where
  userSecurity : Int → Option UserSecurity
  loginAttempts : Int → List LoginAttempt
  wallets : Int → Network → Option UserWallet
  sessions : SessionStore
  serverKey : String
  rng : Nat

/-- `getUserSecurity(telegramUserId)`: read the per-user `user_security`
row. -/
def getUserSecurity (st : AppState) (telegramUserId : Int) :
    Option UserSecurity :=
  st.userSecurity telegramUserId

/-- `recordLoginAttempt(telegramUserId, success)`: insert a
(user, Date.now(), success) row, then delete that user's rows older than 24
hours. -/
def recordLoginAttempt (st : AppState) (telegramUserId : Int)
    (success : Bool) (now : Nat) : AppState :=
  { st with loginAttempts := fun u =>
      if u = telegramUserId then
        ((st.loginAttempts u ++ [(⟨now, success⟩ : LoginAttempt)]).filter
          (fun a => !decide (a.timeMs < now - 24 * 60 * 60 * 1000)))
      else st.loginAttempts u }

/-- `getFailedAttemptCount(telegramUserId, minutes)`: count rows with
`success = 0` and `attempt_time > Date.now() - minutes * 60 * 1000`; the
strict comparison is stated as `now < attempt_time + window` to avoid
truncated subtraction. -/
def getFailedAttemptCount (st : AppState) (telegramUserId : Int)
    (minutes : Nat) (now : Nat) : Nat :=
  ((st.loginAttempts telegramUserId).filter fun a =>
    !a.success && decide (now < a.timeMs + minutes * 60 * 1000)).length

/-- `SELECT MAX(attempt_time) FROM login_attempts WHERE … success = 0`, the
subquery of `isLockedOut`; `row?.last_attempt || 0` yields 0 when the user
has no failed rows. -/
def lastFailedAttempt (st : AppState) (telegramUserId : Int) : Nat :=
  ((st.loginAttempts telegramUserId).filter fun a => !a.success).foldl
    (fun m a => max m a.timeMs) 0

structure LockoutStatus where
  locked : Bool
  unlockIn : Nat
  deriving DecidableEq, Repr

/-- `isLockedOut(telegramUserId)`: locked when ≥5 failed attempts fall in
the trailing 15 minutes and `Date.now()` is still before the most recent
failure plus 15 minutes; `unlockIn` is `Math.ceil((lockUntil - now) /
60000)`, modelled as ceiling division. -/
def isLockedOut (st : AppState) (telegramUserId : Int) (now : Nat) :
    LockoutStatus :=
  if 5 ≤ getFailedAttemptCount st telegramUserId 15 now then
    if now < lastFailedAttempt st telegramUserId + 15 * 60 * 1000 then
      { locked := true,
        unlockIn :=
          (lastFailedAttempt st telegramUserId + 15 * 60 * 1000 - now
            + (60000 - 1)) / 60000 }
    else { locked := false, unlockIn := 0 }
  else { locked := false, unlockIn := 0 }

/-- `getWalletEncryptionVersion(telegramUserId, network)`: read the
`encryption_version` column of the wallet row; `row?.encryption_version ||
1` defaults to 1 when the row is missing or the value is falsy. -/
def getWalletEncryptionVersion (st : AppState) (telegramUserId : Int)
    (network : Network) : Nat :=
  match st.wallets telegramUserId network with
  | none => 1
  | some w => if w.encryptionVersion = 0 then 1 else w.encryptionVersion

/-- `setWalletEncryptionVersion(telegramUserId, network, version)`:
`UPDATE wallets SET encryption_version = ? WHERE …` — a no-op when no wallet
row exists. -/
def setWalletEncryptionVersion (st : AppState) (telegramUserId : Int)
    (network : Network) (version : Nat) : AppState :=
  { st with wallets := fun u n =>
      if u = telegramUserId ∧ n = network then
        (st.wallets u n).map fun w => { w with encryptionVersion := version }
      else st.wallets u n }

/-- `updateUserSecurity(telegramUserId, { passwordHash })`, the only update
shape the verified flows issue: sets `password_hash` and
`last_password_change = CURRENT_TIMESTAMP` on the row (`UPDATE … WHERE
telegram_user_id = ?` is a no-op when no row exists). -/
def updateUserSecurityHash (st : AppState) (telegramUserId : Int)
    (newHash : List Bytes) (now : Nat) : AppState :=
  { st with userSecurity := fun u =>
      if u = telegramUserId then
        (st.userSecurity u).map fun s =>
          { s with passwordHash := newHash, lastPasswordChange := some now }
      else st.userSecurity u }

/-- `getWallet(telegramUserId, network)` from src/services/database.ts. -/
def getWallet (st : AppState) (telegramUserId : Int) (network : Network) :
    Option UserWallet :=
  st.wallets telegramUserId network

/-- `getAllWallets(telegramUserId)` from src/services/database.ts: the rows
of the (user, network)-unique wallet table belonging to the user, with their
networks. -/
def getAllWallets (st : AppState) (telegramUserId : Int) :
    List (Network × UserWallet) :=
  [Network.solana, Network.base].filterMap fun n =>
    (st.wallets telegramUserId n).map fun w => (n, w)

/-- `saveWallet` from src/services/database.ts: `INSERT … ON CONFLICT
(telegram_user_id, network) DO UPDATE SET address, encrypted_private_key` —
the `encryption_version` column is untouched on conflict and takes its
DEFAULT 1 on a fresh insert. -/
def saveWallet (st : AppState) (telegramUserId : Int) (network : Network)
    (address : String) (encryptedPrivateKey : List Bytes) : AppState :=
  { st with wallets := fun u n =>
      if u = telegramUserId ∧ n = network then
        match st.wallets u n with
        | some w =>
            some { w with
              address := address,
              encryptedPrivateKey := encryptedPrivateKey }
        | none =>
            some { address := address,
                   encryptedPrivateKey := encryptedPrivateKey }
      else st.wallets u n }

/-! ### src/services/security.ts -/

structure ActionResult where
  success : Bool
  error : Option String := none
  lockoutMinutes : Option Nat := none
  deriving DecidableEq, Repr

/-- `decryptPrivateKey(telegramUserId, network, password)`: choose the legacy
or password decrypt path by stored version and blob format. -/
def decryptPrivateKey (st : AppState) (telegramUserId : Int)
    (network : Network) (password : String) : Option String :=
  match getWallet st telegramUserId network with
  | none => none
  | some wallet =>
      let version := getWalletEncryptionVersion st telegramUserId network
      if version = 1 ∧ isLegacyFormat wallet.encryptedPrivateKey then
        decryptLegacy wallet.encryptedPrivateKey st.serverKey
      else
        decryptWithPassword wallet.encryptedPrivateKey password telegramUserId

/-- `getPrivateKey(telegramUserId, network)`: delegates to
`sessionManager.getKeyFromSession`. -/
def getPrivateKey (st : AppState) (telegramUserId : Int) (network : Network)
    (now : Nat) : Option String × AppState :=
  match getKeyFromSession st.sessions telegramUserId network now with
  | (result, sessions1) => (result, { st with sessions := sessions1 })

/-- `unlock(telegramUserId, password)`: lockout check, setup check, password
verification (recording the failed attempt and reporting remaining
attempts), then session creation and per-wallet decrypt-and-cache with
silent skip of wallets that fail to decrypt. -/
def unlock (st : AppState) (telegramUserId : Int) (password : String)
    (now : Nat) : ActionResult × AppState :=
  let lockout := isLockedOut st telegramUserId now
  if lockout.locked then
    ({ success := false,
       error := some ("Too many failed attempts. Try again in " ++
         toString lockout.unlockIn ++ " minutes."),
       lockoutMinutes := some lockout.unlockIn }, st)
  else
    match getUserSecurity st telegramUserId with
    | none =>
        ({ success := false,
           error := some "Please set up a password first with /security" },
         st)
    | some security =>
        if !verifyPassword password telegramUserId security.passwordHash then
          let st1 := recordLoginAttempt st telegramUserId false now
          let failedCount := getFailedAttemptCount st1 telegramUserId 15 now
          let remaining : Int := 5 - failedCount
          ({ success := false,
             error := some (if 0 < remaining then
                 "Incorrect password. " ++ toString remaining ++
                   " attempts remaining."
               else
                 "Account locked for 15 minutes due to too many failed attempts.") },
           st1)
        else
          let st1 := recordLoginAttempt st telegramUserId true now
          let (_, sessions1) :=
            createSession st1.sessions telegramUserId now st1.rng
              SESSION_TIMEOUT_MS
          let st2 := { st1 with sessions := sessions1, rng := st1.rng + 1 }
          let st3 := (getAllWallets st2 telegramUserId).foldl
            (fun acc w =>
              match decryptPrivateKey acc telegramUserId w.1 password with
              | some privateKey =>
                  let (_, sessions2) := storeKeyInSession acc.sessions
                    telegramUserId w.1 privateKey now acc.rng
                  { acc with sessions := sessions2, rng := acc.rng + 1 }
              | none => acc) st2
          ({ success := true }, st3)

/-- `lock(telegramUserId)`: destroy the session. -/
def lock (st : AppState) (telegramUserId : Int) : AppState :=
  { st with sessions := lockSession st.sessions telegramUserId }

/-- The body of the per-wallet loop of `changePassword`: decrypt the wallet
under the current password (legacy or password path) and, when that
succeeds, re-encrypt under the new password, upsert the row and bump the
version to 2; a wallet that fails to decrypt is left untouched. -/
def changePasswordStep (telegramUserId : Int)
    (currentPassword newPassword : String) (acc : AppState)
    (w : Network × UserWallet) : AppState :=
  match decryptPrivateKey acc telegramUserId w.1 currentPassword with
  | some privateKey =>
      let newEncrypted := encryptWithPassword privateKey newPassword
        telegramUserId acc.rng (acc.rng + 1)
      let acc1 := { acc with rng := acc.rng + 2 }
      let acc2 := saveWallet acc1 telegramUserId w.1 w.2.address newEncrypted
      setWalletEncryptionVersion acc2 telegramUserId w.1 2
  | none => acc

/-- `changePassword(telegramUserId, currentPassword, newPassword)`: verify
the current password, check the new length, re-encrypt every wallet that
decrypts under the current password (skipping those that do not), store the
new password hash, invalidate the session. -/
def changePassword (st : AppState) (telegramUserId : Int)
    (currentPassword newPassword : String) (now : Nat) :
    ActionResult × AppState :=
  match getUserSecurity st telegramUserId with
  | none => ({ success := false, error := some "No security setup found" }, st)
  | some security =>
      if !verifyPassword currentPassword telegramUserId
          security.passwordHash then
        ({ success := false, error := some "Current password is incorrect" },
         recordLoginAttempt st telegramUserId false now)
      else if newPassword.length < 6 then
        ({ success := false,
           error := some "New password must be at least 6 characters" }, st)
      else
        let st1 := (getAllWallets st telegramUserId).foldl
          (changePasswordStep telegramUserId currentPassword newPassword) st
        let newHash := hashPassword newPassword telegramUserId st1.rng
        let st2 := { st1 with rng := st1.rng + 1 }
        let st3 := updateUserSecurityHash st2 telegramUserId newHash now
        let st4 := { st3 with
          sessions := lockSession st3.sessions telegramUserId }
        ({ success := true }, st4)

/-- `migrateWallet(telegramUserId, network, newPassword)`: legacy→current
re-encryption — refuse version ≥ 2, decrypt with the server-side legacy key,
re-encrypt under the caller-supplied password, bump the version to 2. -/
def migrateWallet (st : AppState) (telegramUserId : Int) (network : Network)
    (newPassword : String) : ActionResult × AppState :=
  match getWallet st telegramUserId network with
  | none => ({ success := false, error := some "Wallet not found" }, st)
  | some wallet =>
      if 2 ≤ getWalletEncryptionVersion st telegramUserId network then
        ({ success := false,
           error := some "Wallet already using new encryption" }, st)
      else
        match decryptLegacy wallet.encryptedPrivateKey st.serverKey with
        | none =>
            ({ success := false, error := some "Failed to decrypt wallet" },
             st)
        | some privateKey =>
            let newEncrypted := encryptWithPassword privateKey newPassword
              telegramUserId st.rng (st.rng + 1)
            let st1 := { st with rng := st.rng + 2 }
            let st2 := saveWallet st1 telegramUserId network wallet.address
              newEncrypted
            let st3 := setWalletEncryptionVersion st2 telegramUserId network 2
            ({ success := true }, st3)

/-! ### Theorems about the custody service -/

/-- Helper: the max-fold of `lastFailedAttempt` only grows from its
start. -/
theorem foldl_max_init_le :
    ∀ (l : List LoginAttempt) (init : Nat),
      init ≤ l.foldl (fun m x => max m x.timeMs) init := by
  intro l
  induction l with
  | nil => intro init; exact le_refl init
  | cons b rest ih =>
      intro init
      rw [List.foldl_cons]
      exact le_trans (le_max_left init b.timeMs) (ih _)

/-- Helper: the max-fold of `lastFailedAttempt` bounds every member. -/
theorem foldl_max_le :
    ∀ (l : List LoginAttempt) (init : Nat) (a : LoginAttempt), a ∈ l →
      a.timeMs ≤ l.foldl (fun m x => max m x.timeMs) init := by
  intro l
  induction l with
  | nil => intro init a ha; cases ha
  | cons b rest ih =>
      intro init a ha
      rw [List.foldl_cons]
      rcases List.mem_cons.mp ha with rfl | hmem
      · exact le_trans (le_max_right init a.timeMs)
          (foldl_max_init_le rest _)
      · exact ih _ a hmem

/-- C4: whenever a user has ≥5 failed attempts within the trailing 15
minutes, `unlock` fails for every supplied password — including the correct
one — leaving the state (in particular the session store) untouched; and
once 15 minutes have elapsed after every (hence after the most recent)
failure, with no further failures recorded, the lockout is over. -/
theorem unlock_lockout (st : AppState) (telegramUserId : Int)
    (password : String) (now : Nat) :
    (5 ≤ getFailedAttemptCount st telegramUserId 15 now →
      (unlock st telegramUserId password now).1.success = false ∧
      (unlock st telegramUserId password now).2 = st) ∧
    ((∀ a ∈ st.loginAttempts telegramUserId,
        a.success = false → a.timeMs + 15 * 60 * 1000 ≤ now) →
      (isLockedOut st telegramUserId now).locked = false) := by
  constructor
  · intro h
    have hl : (isLockedOut st telegramUserId now).locked = true := by
      have h5 : 5 ≤ ((st.loginAttempts telegramUserId).filter fun a =>
          !a.success && decide (now < a.timeMs + 15 * 60 * 1000)).length := h
      have hne : ((st.loginAttempts telegramUserId).filter fun a =>
          !a.success && decide (now < a.timeMs + 15 * 60 * 1000)) ≠ [] := by
        intro hnil
        rw [hnil] at h5
        simp at h5
      obtain ⟨a, ha⟩ := List.exists_mem_of_ne_nil _ hne
      rw [List.mem_filter] at ha
      obtain ⟨hmem, hp⟩ := ha
      rw [Bool.and_eq_true, Bool.not_eq_true', decide_eq_true_eq] at hp
      obtain ⟨hfail, hwin⟩ := hp
      have hle : a.timeMs ≤ lastFailedAttempt st telegramUserId :=
        foldl_max_le _ _ a
          (List.mem_filter.mpr ⟨hmem, by rw [hfail]; rfl⟩)
      unfold isLockedOut
      rw [if_pos h, if_pos (by omega)]
    constructor <;> simp [unlock, hl]
  · intro h
    have hc : getFailedAttemptCount st telegramUserId 15 now = 0 := by
      unfold getFailedAttemptCount
      rw [List.length_eq_zero, List.filter_eq_nil_iff]
      intro a ha
      simp only [Bool.and_eq_true, Bool.not_eq_true', decide_eq_true_eq,
        not_and]
      intro hsucc hlt
      have h2 := h a ha hsucc
      omega
    unfold isLockedOut
    rw [hc, if_neg (by omega)]

/-- Example state for the lockout witness: the user has set up the password
`hunter2` and has five failed attempts recorded at times 0..4 ms. -/
def lockoutExampleState : AppState :=
  { userSecurity := fun u =>
      if u = 1 then
        some { telegramUserId := 1,
               passwordHash := hashPassword "hunter2" 1 0 }
      else none,
    loginAttempts := fun u =>
      if u = 1 then
        [⟨0, false⟩, ⟨1, false⟩, ⟨2, false⟩, ⟨3, false⟩, ⟨4, false⟩]
      else [],
    wallets := fun _ _ => none,
    sessions := [],
    serverKey := "srv",
    rng := 0 }

/-- Concrete instance of the C4 theorem: at time 10 the five failures are all
inside the trailing window, so even the correct password is rejected without
a session; at time 1000000 (more than 15 minutes after the last failure) the
lockout is over. -/
theorem unlock_lockout_witness :
    (5 ≤ getFailedAttemptCount lockoutExampleState 1 15 10 ∧
      (unlock lockoutExampleState 1 "hunter2" 10).1.success = false ∧
      (unlock lockoutExampleState 1 "hunter2" 10).2 = lockoutExampleState) ∧
    ((∀ a ∈ lockoutExampleState.loginAttempts 1,
        a.success = false → a.timeMs + 15 * 60 * 1000 ≤ 1000000) ∧
      (isLockedOut lockoutExampleState 1 1000000).locked = false) :=
  ⟨⟨by decide,
    ((unlock_lockout lockoutExampleState 1 "hunter2" 10).1 (by decide)).1,
    ((unlock_lockout lockoutExampleState 1 "hunter2" 10).1 (by decide)).2⟩,
   ⟨by decide,
    (unlock_lockout lockoutExampleState 1 "hunter2" 1000000).2 (by decide)⟩⟩

/-- C7: `migrateWallet` fails for any wallet whose stored encryption version
is already ≥ 2; for a wallet whose blob is a valid legacy encryption of a
secret under the server-side key it re-encrypts under the caller-supplied
new password, and afterwards the stored blob is no longer in legacy format,
the version is 2, and decrypting the new blob with the new password yields
the original secret. -/
theorem migrateWallet_correct (st : AppState) (telegramUserId : Int)
    (network : Network) (newPassword : String) :
    (2 ≤ getWalletEncryptionVersion st telegramUserId network →
      (migrateWallet st telegramUserId network newPassword).1.success =
        false) ∧
    ∀ wallet secret,
      getWallet st telegramUserId network = some wallet →
      getWalletEncryptionVersion st telegramUserId network < 2 →
      decryptLegacy wallet.encryptedPrivateKey st.serverKey = some secret →
      (migrateWallet st telegramUserId network newPassword).1.success =
          true ∧
      getWallet (migrateWallet st telegramUserId network newPassword).2
          telegramUserId network =
        some ⟨wallet.address,
          encryptWithPassword secret newPassword telegramUserId st.rng
            (st.rng + 1), 2⟩ ∧
      isLegacyFormat
        (encryptWithPassword secret newPassword telegramUserId st.rng
          (st.rng + 1)) = false ∧
      getWalletEncryptionVersion
        (migrateWallet st telegramUserId network newPassword).2
        telegramUserId network = 2 ∧
      decryptWithPassword
        (encryptWithPassword secret newPassword telegramUserId st.rng
          (st.rng + 1)) newPassword telegramUserId = some secret := by
  constructor
  · intro h2
    cases hw : getWallet st telegramUserId network with
    | none => simp [migrateWallet, hw]
    | some wallet => simp [migrateWallet, hw, h2]
  · intro wallet secret hw hv hd
    have hlt : ¬ 2 ≤ getWalletEncryptionVersion st telegramUserId network :=
      by omega
    have hw' : st.wallets telegramUserId network = some wallet := hw
    have hfinal : (migrateWallet st telegramUserId network
        newPassword).2.wallets telegramUserId network =
        some ⟨wallet.address,
          encryptWithPassword secret newPassword telegramUserId st.rng
            (st.rng + 1), 2⟩ := by
      simp [migrateWallet, hw, hw', hlt, hd, getWallet, saveWallet,
        setWalletEncryptionVersion]
    refine ⟨?_, ?_, ?_, ?_, ?_⟩
    · simp [migrateWallet, hw, hlt, hd]
    · exact hfinal
    · simp [isLegacyFormat, encryptWithPassword]
    · unfold getWalletEncryptionVersion
      rw [hfinal]
      rfl
    · simp [decryptWithPassword, encryptWithPassword, gcmDecrypt,
        deriveKeyFromPassword]

/-- Example state for the migration witness: user 1 has a Solana wallet in
legacy (2-field) format at version 1 (the column default). -/
def migrateExampleState : AppState :=
  { userSecurity := fun _ => none,
    loginAttempts := fun _ => [],
    wallets := fun u n =>
      if u = 1 ∧ n = Network.solana then
        some { address := "ADDR",
               encryptedPrivateKey := [Bytes.rand 9,
                 Bytes.cbcCt (Bytes.raw "srvkey") (Bytes.rand 9) "SECRET"],
               encryptionVersion := 1 }
      else none,
    sessions := [],
    serverKey := "srvkey",
    rng := 0 }

/-- Concrete instance of the C7 theorem. -/
theorem migrateWallet_correct_witness :
    getWallet migrateExampleState 1 Network.solana =
      some { address := "ADDR",
             encryptedPrivateKey := [Bytes.rand 9,
               Bytes.cbcCt (Bytes.raw "srvkey") (Bytes.rand 9) "SECRET"],
             encryptionVersion := 1 } ∧
    getWalletEncryptionVersion migrateExampleState 1 Network.solana < 2 ∧
    decryptLegacy [Bytes.rand 9,
        Bytes.cbcCt (Bytes.raw "srvkey") (Bytes.rand 9) "SECRET"]
      migrateExampleState.serverKey = some "SECRET" ∧
    (migrateWallet migrateExampleState 1 Network.solana "newpw").1.success =
      true ∧
    getWalletEncryptionVersion
      (migrateWallet migrateExampleState 1 Network.solana "newpw").2 1
      Network.solana = 2 :=
  ⟨by decide, by decide, by decide,
   ((migrateWallet_correct migrateExampleState 1 Network.solana "newpw").2
      { address := "ADDR",
        encryptedPrivateKey := [Bytes.rand 9,
          Bytes.cbcCt (Bytes.raw "srvkey") (Bytes.rand 9) "SECRET"],
        encryptionVersion := 1 } "SECRET"
      (by decide) (by decide) (by decide)).1,
   ((migrateWallet_correct migrateExampleState 1 Network.solana "newpw").2
      { address := "ADDR",
        encryptedPrivateKey := [Bytes.rand 9,
          Bytes.cbcCt (Bytes.raw "srvkey") (Bytes.rand 9) "SECRET"],
        encryptionVersion := 1 } "SECRET"
      (by decide) (by decide) (by decide)).2.2.2.1⟩

/-- Helper: deleting a key from a JS-style map makes lookups of that key
return nothing. -/
theorem mapGet_mapDelete_self {κ α : Type} [DecidableEq κ]
    (m : List (κ × α)) (key : κ) : mapGet (mapDelete m key) key = none := by
  induction m with
  | nil => rfl
  | cons e rest ih =>
      by_cases h : e.1 = key
      · simpa [mapDelete, h] using ih
      · simpa [mapDelete, mapGet, h] using ih

/-- Helper: the ephemeral session cipher round-trips. -/
theorem sessionDecrypt_sessionEncrypt (sessionKey : Bytes) (data : String)
    (ivIdx : Nat) :
    sessionDecrypt sessionKey (sessionEncrypt sessionKey data ivIdx) =
      some data := by
  simp [sessionDecrypt, sessionEncrypt, gcmDecrypt]

/-- A session is well formed when every cached blob is an encryption under
that session's own key — exactly what `storeKeyInSession` produces. -/
def SessionWF (s : Session) : Prop :=
  ∀ network blob, mapGet s.encryptedKeys network = some blob →
    ∃ key ivIdx, blob = sessionEncrypt s.sessionKey key ivIdx

/-- C5: `getPrivateKey(user, chain)` returns a secret if and only if a
session for that user exists, its expiry time is not in the past at the
moment of the read (lazy expiry check on every read), and the session holds
a key for that chain; in every other case it returns no value, and a read
through an expired session also removes that session from the store. -/
theorem getPrivateKey_session (st : AppState) (telegramUserId : Int)
    (network : Network) (now : Nat)
    (hwf : ∀ s, mapGet st.sessions telegramUserId = some s → SessionWF s) :
    ((getPrivateKey st telegramUserId network now).1.isSome = true ↔
      ∃ s, mapGet st.sessions telegramUserId = some s ∧
        ¬ s.expiresAt < now ∧
        (mapGet s.encryptedKeys network).isSome = true) ∧
    (∀ s, mapGet st.sessions telegramUserId = some s → s.expiresAt < now →
      mapGet (getPrivateKey st telegramUserId network now).2.sessions
        telegramUserId = none) := by
  cases hs : mapGet st.sessions telegramUserId with
  | none =>
      constructor
      · simp [getPrivateKey, getKeyFromSession, getSession, hs]
      · intro s hc
        exact absurd hc (by simp)
  | some s =>
      by_cases hexp : s.expiresAt < now
      · constructor
        · constructor
          · intro habs
            rw [show (getPrivateKey st telegramUserId network now).1 = none
                  by simp [getPrivateKey, getKeyFromSession, getSession, hs,
                    hexp]] at habs
            simp at habs
          · rintro ⟨s', hs', hexp', -⟩
            obtain rfl : s = s' := Option.some.inj hs'
            exact absurd hexp hexp'
        · intro s' hs' _
          have h2 : (getPrivateKey st telegramUserId network now).2.sessions =
              mapDelete st.sessions telegramUserId := by
            simp [getPrivateKey, getKeyFromSession, getSession, hs, hexp]
          rw [h2]
          exact mapGet_mapDelete_self st.sessions telegramUserId
      · constructor
        · cases hk : mapGet s.encryptedKeys network with
          | none =>
              constructor
              · intro habs
                rw [show (getPrivateKey st telegramUserId network now).1 =
                      none by
                    simp [getPrivateKey, getKeyFromSession, getSession, hs,
                      hexp, hk]] at habs
                simp at habs
              · rintro ⟨s', hs', -, hsome⟩
                obtain rfl : s = s' := Option.some.inj hs'
                rw [hk] at hsome
                simp at hsome
          | some blob =>
              obtain ⟨key, ivIdx, rfl⟩ := hwf s hs network blob hk
              constructor
              · intro _
                exact ⟨s, rfl, hexp, by rw [hk]; rfl⟩
              · intro _
                rw [show (getPrivateKey st telegramUserId network now).1 =
                      some key by
                    simp [getPrivateKey, getKeyFromSession, getSession, hs,
                      hexp, hk, sessionDecrypt_sessionEncrypt]]
                rfl
        · intro s' hs' hexp'
          obtain rfl : s = s' := Option.some.inj hs'
          exact absurd hexp' hexp

/-- The live session used by the C5 witness: created at 0, expires at 100,
holding a Solana key encrypted under its own session key. -/
def exampleSession : Session :=
  { telegramUserId := 1, unlockedAt := 0, expiresAt := 100,
    encryptedKeys := [(Network.solana,
      sessionEncrypt (Bytes.rand 0) "KEY" 1)],
    sessionKey := Bytes.rand 0 }

/-- Example state for the C5 witness. -/
def sessionExampleState : AppState :=
  { userSecurity := fun _ => none,
    loginAttempts := fun _ => [],
    wallets := fun _ _ => none,
    sessions := [(1, exampleSession)],
    serverKey := "srv",
    rng := 2 }

/-- Concrete instance of the C5 theorem: before expiry the key is readable;
reading after expiry removes the session. -/
theorem getPrivateKey_session_witness :
    (getPrivateKey sessionExampleState 1 Network.solana 50).1.isSome =
      true ∧
    mapGet (getPrivateKey sessionExampleState 1 Network.solana 200).2.sessions
      1 = none := by
  have hwf : ∀ s, mapGet sessionExampleState.sessions 1 = some s →
      SessionWF s := by
    intro s hs
    simp only [sessionExampleState, mapGet, if_pos] at hs
    obtain rfl : exampleSession = s := Option.some.inj hs
    intro n blob hb
    cases n with
    | solana =>
        refine ⟨"KEY", 1, ?_⟩
        have : some (sessionEncrypt (Bytes.rand 0) "KEY" 1) = some blob := hb
        exact (Option.some.inj this).symm
    | base => simp [exampleSession, mapGet] at hb
  constructor
  · exact (getPrivateKey_session sessionExampleState 1 Network.solana 50
      hwf).1.mpr ⟨exampleSession, rfl, by decide, by decide⟩
  · exact (getPrivateKey_session sessionExampleState 1 Network.solana 200
      hwf).2 exampleSession rfl (by decide)

/-- Helper: `decryptPrivateKey` depends only on the wallet row (which now
carries the version column) and the server key it reads. -/
theorem decryptPrivateKey_congr (st st' : AppState) (telegramUserId : Int)
    (network : Network) (password : String)
    (hw : st'.wallets telegramUserId network =
      st.wallets telegramUserId network)
    (hk : st'.serverKey = st.serverKey) :
    decryptPrivateKey st' telegramUserId network password =
      decryptPrivateKey st telegramUserId network password := by
  unfold decryptPrivateKey getWallet getWalletEncryptionVersion
  rw [hw, hk]

/-- Helper: the per-wallet loop step never touches the user-security rows. -/
theorem changePasswordStep_userSecurity (telegramUserId : Int)
    (currentPassword newPassword : String) (acc : AppState)
    (w : Network × UserWallet) :
    (changePasswordStep telegramUserId currentPassword newPassword acc
      w).userSecurity = acc.userSecurity := by
  unfold changePasswordStep
  split <;> rfl

/-- Helper: the per-wallet loop step never changes the server key. -/
theorem changePasswordStep_serverKey (telegramUserId : Int)
    (currentPassword newPassword : String) (acc : AppState)
    (w : Network × UserWallet) :
    (changePasswordStep telegramUserId currentPassword newPassword acc
      w).serverKey = acc.serverKey := by
  unfold changePasswordStep
  split <;> rfl

/-- Helper: the loop step leaves wallet rows of other keys unchanged. -/
theorem changePasswordStep_wallets_ne (telegramUserId : Int)
    (currentPassword newPassword : String) (acc : AppState)
    (w : Network × UserWallet) (u2 : Int) (n : Network)
    (hne : ¬(u2 = telegramUserId ∧ n = w.1)) :
    (changePasswordStep telegramUserId currentPassword newPassword acc
      w).wallets u2 n = acc.wallets u2 n := by
  unfold changePasswordStep
  split
  · simp [saveWallet, setWalletEncryptionVersion, hne]
  · rfl

/-- Helper: a wallet that fails to decrypt is skipped entirely. -/
theorem changePasswordStep_none (telegramUserId : Int)
    (currentPassword newPassword : String) (acc : AppState)
    (w : Network × UserWallet)
    (hdec : decryptPrivateKey acc telegramUserId w.1 currentPassword =
      none) :
    changePasswordStep telegramUserId currentPassword newPassword acc w =
      acc := by
  unfold changePasswordStep
  rw [hdec]

/-- Helper: a wallet that decrypts is re-encrypted under the new password,
and its row ends at version 2 (the upsert keeps or defaults the column, the
subsequent `setWalletEncryptionVersion` overwrites it with 2 either way). -/
theorem changePasswordStep_some (telegramUserId : Int)
    (currentPassword newPassword : String) (acc : AppState)
    (w : Network × UserWallet) (k : String)
    (hdec : decryptPrivateKey acc telegramUserId w.1 currentPassword =
      some k) :
    (changePasswordStep telegramUserId currentPassword newPassword acc
        w).wallets telegramUserId w.1 =
      some ⟨w.2.address, encryptWithPassword k newPassword telegramUserId
        acc.rng (acc.rng + 1), 2⟩ := by
  unfold changePasswordStep
  rw [hdec]
  cases h : acc.wallets telegramUserId w.1 <;>
    simp [saveWallet, setWalletEncryptionVersion, h]

/-- Helper: the whole per-wallet loop never touches the user-security
rows. -/
theorem foldl_changePasswordStep_userSecurity (telegramUserId : Int)
    (currentPassword newPassword : String) (l : List (Network × UserWallet))
    (acc : AppState) :
    (l.foldl (changePasswordStep telegramUserId currentPassword newPassword)
      acc).userSecurity = acc.userSecurity := by
  induction l generalizing acc with
  | nil => rfl
  | cons w rest ih =>
      rw [List.foldl_cons, ih, changePasswordStep_userSecurity]

/-- C9: when `changePassword` is called with the correct current password
and a valid new password it succeeds and replaces the stored password hash
even if some wallets fail to decrypt under the current password; every
failing wallet keeps its blob and its encryption version unchanged, while
every wallet that decrypts is re-encrypted under the new password at
version 2. -/
theorem changePassword_partial_reencrypt (st : AppState)
    (telegramUserId : Int) (currentPassword newPassword : String)
    (now : Nat) (security : UserSecurity)
    (hsec : getUserSecurity st telegramUserId = some security)
    (hver : verifyPassword currentPassword telegramUserId
      security.passwordHash = true)
    (hlen : ¬ newPassword.length < 6) :
    (changePassword st telegramUserId currentPassword newPassword
      now).1.success = true ∧
    (∃ saltIdx row,
      (changePassword st telegramUserId currentPassword newPassword
        now).2.userSecurity telegramUserId = some row ∧
      row.passwordHash = hashPassword newPassword telegramUserId saltIdx) ∧
    (∀ network wallet,
      st.wallets telegramUserId network = some wallet →
      decryptPrivateKey st telegramUserId network currentPassword = none →
      (changePassword st telegramUserId currentPassword newPassword
        now).2.wallets telegramUserId network = some wallet ∧
      getWalletEncryptionVersion
        (changePassword st telegramUserId currentPassword newPassword
          now).2 telegramUserId network =
        getWalletEncryptionVersion st telegramUserId network) ∧
    (∀ network wallet secret,
      st.wallets telegramUserId network = some wallet →
      decryptPrivateKey st telegramUserId network currentPassword =
        some secret →
      ∃ saltIdx ivIdx,
        (changePassword st telegramUserId currentPassword newPassword
          now).2.wallets telegramUserId network =
          some ⟨wallet.address, encryptWithPassword secret newPassword
            telegramUserId saltIdx ivIdx, 2⟩ ∧
        getWalletEncryptionVersion
          (changePassword st telegramUserId currentPassword newPassword
            now).2 telegramUserId network = 2) := by
  have hred : changePassword st telegramUserId currentPassword newPassword
      now =
      ({ success := true },
        let st1 := (getAllWallets st telegramUserId).foldl
          (changePasswordStep telegramUserId currentPassword newPassword) st
        let st3 := updateUserSecurityHash { st1 with rng := st1.rng + 1 }
          telegramUserId (hashPassword newPassword telegramUserId st1.rng)
          now
        { st3 with sessions := lockSession st3.sessions telegramUserId }) :=
    by
    unfold changePassword
    rw [hsec]
    simp [hver, hlen]
  have hW : (changePassword st telegramUserId currentPassword newPassword
      now).2.wallets =
      ((getAllWallets st telegramUserId).foldl
        (changePasswordStep telegramUserId currentPassword newPassword)
        st).wallets := by
    rw [hred]
    rfl
  refine ⟨by rw [hred], ?_, ?_, ?_⟩
  · refine ⟨((getAllWallets st telegramUserId).foldl
      (changePasswordStep telegramUserId currentPassword newPassword)
      st).rng,
      { security with
        passwordHash := hashPassword newPassword telegramUserId
          ((getAllWallets st telegramUserId).foldl
            (changePasswordStep telegramUserId currentPassword newPassword)
            st).rng,
        lastPasswordChange := some now }, ?_, rfl⟩
    rw [hred]
    show (updateUserSecurityHash _ telegramUserId _ now).userSecurity
        telegramUserId = _
    rw [updateUserSecurityHash]
    simp only [if_pos rfl]
    have hu : ((getAllWallets st telegramUserId).foldl
        (changePasswordStep telegramUserId currentPassword newPassword)
        st).userSecurity telegramUserId = some security := by
      rw [foldl_changePasswordStep_userSecurity]
      exact hsec
    rw [show ({ ((getAllWallets st telegramUserId).foldl
        (changePasswordStep telegramUserId currentPassword newPassword)
        st) with
        rng := ((getAllWallets st telegramUserId).foldl
          (changePasswordStep telegramUserId currentPassword newPassword)
          st).rng + 1 } : AppState).userSecurity =
      ((getAllWallets st telegramUserId).foldl
        (changePasswordStep telegramUserId currentPassword newPassword)
        st).userSecurity from rfl]
    rw [hu]
    rfl
  · intro network wallet hwal hdec
    have hfw : (changePassword st telegramUserId currentPassword newPassword
        now).2.wallets telegramUserId network = some wallet := by
      rw [hW]
      cases network with
      | solana =>
          cases hbase : st.wallets telegramUserId Network.base with
          | none =>
              have hlist : getAllWallets st telegramUserId =
                  [(Network.solana, wallet)] := by
                simp [getAllWallets, hwal, hbase]
              rw [hlist, List.foldl_cons, List.foldl_nil,
                changePasswordStep_none telegramUserId currentPassword
                  newPassword st (Network.solana, wallet) hdec]
              exact hwal
          | some w2 =>
              have hlist : getAllWallets st telegramUserId =
                  [(Network.solana, wallet), (Network.base, w2)] := by
                simp [getAllWallets, hwal, hbase]
              rw [hlist, List.foldl_cons, List.foldl_cons, List.foldl_nil,
                changePasswordStep_none telegramUserId currentPassword
                  newPassword st (Network.solana, wallet) hdec,
                changePasswordStep_wallets_ne telegramUserId
                  currentPassword newPassword st (Network.base, w2)
                  telegramUserId Network.solana (by simp)]
              exact hwal
      | base =>
          cases hsol : st.wallets telegramUserId Network.solana with
          | none =>
              have hlist : getAllWallets st telegramUserId =
                  [(Network.base, wallet)] := by
                simp [getAllWallets, hwal, hsol]
              rw [hlist, List.foldl_cons, List.foldl_nil,
                changePasswordStep_none telegramUserId currentPassword
                  newPassword st (Network.base, wallet) hdec]
              exact hwal
          | some w1 =>
              have hlist : getAllWallets st telegramUserId =
                  [(Network.solana, w1), (Network.base, wallet)] := by
                simp [getAllWallets, hwal, hsol]
              have hdecA : decryptPrivateKey
                  (changePasswordStep telegramUserId currentPassword
                    newPassword st (Network.solana, w1))
                  telegramUserId Network.base currentPassword = none := by
                rw [decryptPrivateKey_congr st
                  (changePasswordStep telegramUserId currentPassword
                    newPassword st (Network.solana, w1))
                  telegramUserId Network.base currentPassword
                  (changePasswordStep_wallets_ne _ _ _ _ _ _ _ (by simp))
                  (changePasswordStep_serverKey _ _ _ _ _)]
                exact hdec
              rw [hlist, List.foldl_cons, List.foldl_cons, List.foldl_nil,
                changePasswordStep_none telegramUserId currentPassword
                  newPassword _ (Network.base, wallet) hdecA,
                changePasswordStep_wallets_ne telegramUserId
                  currentPassword newPassword st (Network.solana, w1)
                  telegramUserId Network.base (by simp)]
              exact hwal
    refine ⟨hfw, ?_⟩
    unfold getWalletEncryptionVersion
    rw [hfw, hwal]
  · intro network wallet secret hwal hdec
    have key : ∃ saltIdx ivIdx,
        (changePassword st telegramUserId currentPassword newPassword
          now).2.wallets telegramUserId network =
        some ⟨wallet.address, encryptWithPassword secret newPassword
          telegramUserId saltIdx ivIdx, 2⟩ := by
      rw [hW]
      cases network with
      | solana =>
          cases hbase : st.wallets telegramUserId Network.base with
          | none =>
              have hlist : getAllWallets st telegramUserId =
                  [(Network.solana, wallet)] := by
                simp [getAllWallets, hwal, hbase]
              rw [hlist, List.foldl_cons, List.foldl_nil]
              exact ⟨st.rng, st.rng + 1,
                changePasswordStep_some telegramUserId currentPassword
                  newPassword st (Network.solana, wallet) secret hdec⟩
          | some w2 =>
              have hlist : getAllWallets st telegramUserId =
                  [(Network.solana, wallet), (Network.base, w2)] := by
                simp [getAllWallets, hwal, hbase]
              rw [hlist, List.foldl_cons, List.foldl_cons, List.foldl_nil,
                changePasswordStep_wallets_ne telegramUserId
                  currentPassword newPassword _ (Network.base, w2)
                  telegramUserId Network.solana (by simp)]
              exact ⟨st.rng, st.rng + 1,
                changePasswordStep_some telegramUserId currentPassword
                  newPassword st (Network.solana, wallet) secret hdec⟩
      | base =>
          cases hsol : st.wallets telegramUserId Network.solana with
          | none =>
              have hlist : getAllWallets st telegramUserId =
                  [(Network.base, wallet)] := by
                simp [getAllWallets, hwal, hsol]
              rw [hlist, List.foldl_cons, List.foldl_nil]
              exact ⟨st.rng, st.rng + 1,
                changePasswordStep_some telegramUserId currentPassword
                  newPassword st (Network.base, wallet) secret hdec⟩
          | some w1 =>
              have hlist : getAllWallets st telegramUserId =
                  [(Network.solana, w1), (Network.base, wallet)] := by
                simp [getAllWallets, hwal, hsol]
              have hdecA : decryptPrivateKey
                  (changePasswordStep telegramUserId currentPassword
                    newPassword st (Network.solana, w1))
                  telegramUserId Network.base currentPassword =
                  some secret := by
                rw [decryptPrivateKey_congr st
                  (changePasswordStep telegramUserId currentPassword
                    newPassword st (Network.solana, w1))
                  telegramUserId Network.base currentPassword
                  (changePasswordStep_wallets_ne _ _ _ _ _ _ _ (by simp))
                  (changePasswordStep_serverKey _ _ _ _ _)]
                exact hdec
              rw [hlist, List.foldl_cons, List.foldl_cons, List.foldl_nil]
              exact ⟨(changePasswordStep telegramUserId currentPassword
                  newPassword st (Network.solana, w1)).rng,
                (changePasswordStep telegramUserId currentPassword
                  newPassword st (Network.solana, w1)).rng + 1,
                changePasswordStep_some telegramUserId currentPassword
                  newPassword _ (Network.base, wallet) secret hdecA⟩
    obtain ⟨saltIdx, ivIdx, hfw⟩ := key
    refine ⟨saltIdx, ivIdx, hfw, ?_⟩
    unfold getWalletEncryptionVersion
    rw [hfw]
    rfl

/-- Example state for the C9 witness: user 1 has the password `oldpass`, a
Solana wallet encrypted under it at version 2, and a Base wallet with a
corrupt one-field blob that decrypts under nothing. -/
def changePasswordExampleState : AppState :=
  { userSecurity := fun u =>
      if u = 1 then
        some { telegramUserId := 1,
               passwordHash := hashPassword "oldpass" 1 0 }
      else none,
    loginAttempts := fun _ => [],
    wallets := fun u n =>
      if u = 1 ∧ n = Network.solana then
        some { address := "SOLADDR",
               encryptedPrivateKey :=
                 encryptWithPassword "SOLSECRET" "oldpass" 1 1 2,
               encryptionVersion := 2 }
      else if u = 1 ∧ n = Network.base then
        some { address := "BASEADDR",
               encryptedPrivateKey := [Bytes.raw "corrupt"],
               encryptionVersion := 2 }
      else none,
    sessions := [],
    serverKey := "srv",
    rng := 10 }

/-- Concrete instance of the C9 theorem: the change succeeds, the corrupt
Base wallet is left byte-for-byte unchanged at its old version, and the
Solana wallet is re-encrypted at version 2. -/
theorem changePassword_partial_reencrypt_witness :
    (getUserSecurity changePasswordExampleState 1 =
        some { telegramUserId := 1,
               passwordHash := hashPassword "oldpass" 1 0 } ∧
      verifyPassword "oldpass" 1 (hashPassword "oldpass" 1 0) = true ∧
      ¬ ("newpass1" : String).length < 6) ∧
    (changePassword changePasswordExampleState 1 "oldpass" "newpass1"
      0).1.success = true ∧
    ((changePassword changePasswordExampleState 1 "oldpass" "newpass1"
        0).2.wallets 1 Network.base =
      some { address := "BASEADDR",
             encryptedPrivateKey := [Bytes.raw "corrupt"],
             encryptionVersion := 2 } ∧
      getWalletEncryptionVersion
        (changePassword changePasswordExampleState 1 "oldpass" "newpass1"
          0).2 1 Network.base =
      getWalletEncryptionVersion changePasswordExampleState 1
        Network.base) ∧
    (∃ saltIdx ivIdx,
      (changePassword changePasswordExampleState 1 "oldpass" "newpass1"
        0).2.wallets 1 Network.solana =
        some { address := "SOLADDR",
               encryptedPrivateKey :=
                 encryptWithPassword "SOLSECRET" "newpass1" 1 saltIdx ivIdx,
               encryptionVersion := 2 } ∧
      getWalletEncryptionVersion
        (changePassword changePasswordExampleState 1 "oldpass" "newpass1"
          0).2 1 Network.solana = 2) :=
  ⟨⟨rfl, by decide, by decide⟩,
   (changePassword_partial_reencrypt changePasswordExampleState 1 "oldpass"
      "newpass1" 0
      { telegramUserId := 1, passwordHash := hashPassword "oldpass" 1 0 }
      rfl (by decide) (by decide)).1,
   (changePassword_partial_reencrypt changePasswordExampleState 1 "oldpass"
      "newpass1" 0
      { telegramUserId := 1, passwordHash := hashPassword "oldpass" 1 0 }
      rfl (by decide) (by decide)).2.2.1 Network.base
      { address := "BASEADDR", encryptedPrivateKey := [Bytes.raw "corrupt"],
        encryptionVersion := 2 } (by decide) (by decide),
   (changePassword_partial_reencrypt changePasswordExampleState 1 "oldpass"
      "newpass1" 0
      { telegramUserId := 1, passwordHash := hashPassword "oldpass" 1 0 }
      rfl (by decide) (by decide)).2.2.2 Network.solana
      { address := "SOLADDR",
        encryptedPrivateKey :=
          encryptWithPassword "SOLSECRET" "oldpass" 1 1 2,
        encryptionVersion := 2 }
      "SOLSECRET" (by decide) (by decide)⟩

end TradingBot
